import Mathlib

/-!
Verification development for the `llmprompts` prompt-composition library.

The Python source (Thought, Question, Requirement, Context, Branch, Role,
Department, PromptBuilder) is shallowly embedded below: each Python class
becomes a Lean structure or inductive, each method a Lean function over it,
Python dictionaries become association lists of `String × Value` with
Python-dict insertion semantics, and Python's enum-by-value lookup becomes
`find?` over the member list.
-/

/-- JSON-like values: the shapes produced by the library's `to_dict`
projections (strings, ints, lists, nested mappings). -/
inductive Value where
  | str : String → Value
  | int : Int → Value
  | list : List Value → Value
  | dict : List (String × Value) → Value

/-- A Python dictionary with string keys, modelled as an association list
kept in insertion order. -/
abbrev Dict := List (String × Value)

/-- `d[k] = v` in Python: replace the value in place when the key is
present (keeping its position), otherwise append the new entry. -/
def dictInsert (d : Dict) (k : String) (v : Value) : Dict :=
  if d.any (fun p => p.1 == k) then
    d.map (fun p => if p.1 == k then (k, v) else p)
  else
    d ++ [(k, v)]

/-- Iterate `d[k] = v` over a list of entries (Python's
`for key, value in entries.items(): result[key] = value`). -/
def dictInsertMany (d : Dict) (entries : Dict) : Dict :=
  entries.foldl (fun acc p => dictInsert acc p.1 p.2) d

/-- The keys of a dictionary, in order. -/
def dictKeys (d : Dict) : List String := d.map Prod.fst

/-- `ThoughtType` enum of `roles/thought.py`. -/
inductive ThoughtType where
  | ANALYSIS | HYPOTHESIS | CONSIDERATION | LIMITATION | IMPLICATION
  | RECOMMENDATION | QUESTION | OBSERVATION | INSIGHT | METHODOLOGY
deriving DecidableEq

/-- The `.value` of each `ThoughtType` member. -/
def ThoughtType.value : ThoughtType → String
  | .ANALYSIS => "analysis"
  | .HYPOTHESIS => "hypothesis"
  | .CONSIDERATION => "consideration"
  | .LIMITATION => "limitation"
  | .IMPLICATION => "implication"
  | .RECOMMENDATION => "recommendation"
  | .QUESTION => "question"
  | .OBSERVATION => "observation"
  | .INSIGHT => "insight"
  | .METHODOLOGY => "methodology"

/-- All members of `ThoughtType`, in declaration order. -/
def ThoughtType.members : List ThoughtType :=
  [.ANALYSIS, .HYPOTHESIS, .CONSIDERATION, .LIMITATION, .IMPLICATION,
   .RECOMMENDATION, .QUESTION, .OBSERVATION, .INSIGHT, .METHODOLOGY]

/-- Python's `ThoughtType(s)` value lookup: the first member whose value
equals `s`, or `none` (Python raises `ValueError`, which every call site
catches). -/
def ThoughtType.ofValue (s : String) : Option ThoughtType :=
  ThoughtType.members.find? (fun t => t.value == s)

/-- `QuestionType` enum of `contexts/question.py`. -/
inductive QuestionType where
  | OPEN_ENDED | ANALYTICAL | COMPARATIVE | DIAGNOSTIC | PREDICTIVE
  | CAUSAL | EXPLORATORY | CONFIRMATORY | STRATEGIC | TECHNICAL
deriving DecidableEq

/-- The `.value` of each `QuestionType` member. -/
def QuestionType.value : QuestionType → String
  | .OPEN_ENDED => "open_ended"
  | .ANALYTICAL => "analytical"
  | .COMPARATIVE => "comparative"
  | .DIAGNOSTIC => "diagnostic"
  | .PREDICTIVE => "predictive"
  | .CAUSAL => "causal"
  | .EXPLORATORY => "exploratory"
  | .CONFIRMATORY => "confirmatory"
  | .STRATEGIC => "strategic"
  | .TECHNICAL => "technical"

/-- All members of `QuestionType`, in declaration order. -/
def QuestionType.members : List QuestionType :=
  [.OPEN_ENDED, .ANALYTICAL, .COMPARATIVE, .DIAGNOSTIC, .PREDICTIVE,
   .CAUSAL, .EXPLORATORY, .CONFIRMATORY, .STRATEGIC, .TECHNICAL]

/-- Python's `QuestionType(s)` value lookup. -/
def QuestionType.ofValue (s : String) : Option QuestionType :=
  QuestionType.members.find? (fun t => t.value == s)

/-- `QuestionCategory` enum of `contexts/question.py`. -/
inductive QuestionCategory where
  | EPIDEMIOLOGY | CLINICAL | TECHNICAL | BUSINESS | RESEARCH
  | OPERATIONAL | REGULATORY | ETHICAL | GENERAL
deriving DecidableEq

/-- The `.value` of each `QuestionCategory` member. -/
def QuestionCategory.value : QuestionCategory → String
  | .EPIDEMIOLOGY => "epidemiology"
  | .CLINICAL => "clinical"
  | .TECHNICAL => "technical"
  | .BUSINESS => "business"
  | .RESEARCH => "research"
  | .OPERATIONAL => "operational"
  | .REGULATORY => "regulatory"
  | .ETHICAL => "ethical"
  | .GENERAL => "general"

/-- All members of `QuestionCategory`, in declaration order. -/
def QuestionCategory.members : List QuestionCategory :=
  [.EPIDEMIOLOGY, .CLINICAL, .TECHNICAL, .BUSINESS, .RESEARCH,
   .OPERATIONAL, .REGULATORY, .ETHICAL, .GENERAL]

/-- Python's `QuestionCategory(s)` value lookup. -/
def QuestionCategory.ofValue (s : String) : Option QuestionCategory :=
  QuestionCategory.members.find? (fun t => t.value == s)

/-- `RequirementType` enum of `prompts/requirement.py`. -/
inductive RequirementType where
  | FUNCTIONAL | TECHNICAL | ANALYTICAL | PRESENTATION | COMPLIANCE
  | PERFORMANCE | CONSTRAINT | QUALITY
deriving DecidableEq

/-- The `.value` of each `RequirementType` member. -/
def RequirementType.value : RequirementType → String
  | .FUNCTIONAL => "functional"
  | .TECHNICAL => "technical"
  | .ANALYTICAL => "analytical"
  | .PRESENTATION => "presentation"
  | .COMPLIANCE => "compliance"
  | .PERFORMANCE => "performance"
  | .CONSTRAINT => "constraint"
  | .QUALITY => "quality"

/-- All members of `RequirementType`, in declaration order. -/
def RequirementType.members : List RequirementType :=
  [.FUNCTIONAL, .TECHNICAL, .ANALYTICAL, .PRESENTATION, .COMPLIANCE,
   .PERFORMANCE, .CONSTRAINT, .QUALITY]

/-- Python's `RequirementType(s)` value lookup. -/
def RequirementType.ofValue (s : String) : Option RequirementType :=
  RequirementType.members.find? (fun t => t.value == s)

/-- `RequirementPriority` enum of `prompts/requirement.py`. -/
inductive RequirementPriority where
  | CRITICAL | HIGH | MEDIUM | LOW | OPTIONAL
deriving DecidableEq

/-- The `.value` of each `RequirementPriority` member. -/
def RequirementPriority.value : RequirementPriority → String
  | .CRITICAL => "critical"
  | .HIGH => "high"
  | .MEDIUM => "medium"
  | .LOW => "low"
  | .OPTIONAL => "optional"

/-- All members of `RequirementPriority`, in declaration order. -/
def RequirementPriority.members : List RequirementPriority :=
  [.CRITICAL, .HIGH, .MEDIUM, .LOW, .OPTIONAL]

/-- Python's `RequirementPriority(s)` value lookup. -/
def RequirementPriority.ofValue (s : String) : Option RequirementPriority :=
  RequirementPriority.members.find? (fun t => t.value == s)

/-- An argument that is either an already-typed enum member or a raw
string (the `Union[Enum, str]` accepted by the constructors). -/
inductive StrOr (α : Type) where
  | enum : α → StrOr α
  | str : String → StrOr α

/-- `"  " * indent_level`. -/
def indentOf : Nat → String
  | 0 => ""
  | n + 1 => "  " ++ indentOf n

/-- The `Thought` class of `roles/thought.py`: content, type, order,
nested sub-thoughts, references, tags. -/
inductive Thought where
  | mk : String → ThoughtType → Int → List Thought → List String → List String → Thought

/-- Field `Thought.content`. -/
@[simp] def Thought.content : Thought → String
  | .mk c _ _ _ _ _ => c

/-- Field `Thought.type`. -/
@[simp] def Thought.type : Thought → ThoughtType
  | .mk _ ty _ _ _ _ => ty

/-- Field `Thought.order`. -/
@[simp] def Thought.order : Thought → Int
  | .mk _ _ o _ _ _ => o

/-- Field `Thought.sub_thoughts`. -/
@[simp] def Thought.sub_thoughts : Thought → List Thought
  | .mk _ _ _ s _ _ => s

/-- Field `Thought.references`. -/
@[simp] def Thought.references : Thought → List String
  | .mk _ _ _ _ r _ => r

/-- Field `Thought.tags`. -/
@[simp] def Thought.tags : Thought → List String
  | .mk _ _ _ _ _ t => t

/-- `Thought.__init__`: a string `thought_type` is looked up by enum value,
falling back to `CONSIDERATION`; `None` list arguments become `[]`. -/
def Thought.init (content : String) (thought_type : StrOr ThoughtType)
    (order : Int) (sub_thoughts : Option (List Thought))
    (references : Option (List String)) (tags : Option (List String)) : Thought :=
  Thought.mk content
    (match thought_type with
     | .str s => (ThoughtType.ofValue s).getD .CONSIDERATION
     | .enum t => t)
    order (sub_thoughts.getD []) (references.getD []) (tags.getD [])

mutual

/-- `Thought.to_dict`: content/type/order/tags unconditionally, then
`references` and `sub_thoughts` only when non-empty. -/
def Thought.to_dict : Thought → Dict
  | .mk c ty o subs refs tags =>
    [("content", .str c), ("type", .str ty.value), ("order", .int o),
     ("tags", .list (tags.map .str))]
    ++ (if refs.isEmpty then [] else [("references", Value.list (refs.map .str))])
    ++ (if subs.isEmpty then []
        else [("sub_thoughts", Value.list (Thought.listDicts subs))])

/-- The list `[t.to_dict() for t in sub_thoughts]`. -/
def Thought.listDicts : List Thought → List Value
  | [] => []
  | t :: r => Value.dict t.to_dict :: Thought.listDicts r

end

mutual

/-- `Thought.to_prompt_text`: indented header (with the order number when
positive), a comma-joined `References:` line when references exist, then
each sub-thought's block at the next indent level. -/
def Thought.to_prompt_text : Thought → Nat → String
  | .mk c _ o subs refs _, indent_level =>
    let indent := indentOf indent_level
    let header :=
      if o > 0 then indent ++ "Thought " ++ toString o ++ ": " ++ c
      else indent ++ "Thought: " ++ c
    let lines := [header]
    let lines :=
      if refs.isEmpty then lines
      else lines ++ [indent ++ "References: " ++ String.intercalate ", " refs]
    let lines := lines ++ Thought.listTexts subs (indent_level + 1)
    String.intercalate "\n" lines

/-- The blocks of a list of sub-thoughts, each rendered at level `l`. -/
def Thought.listTexts : List Thought → Nat → List String
  | [], _ => []
  | t :: r, l => t.to_prompt_text l :: Thought.listTexts r l

end

/-- The `Question` class of `contexts/question.py`: text, type, category,
follow-ups, context, importance, tags. -/
inductive Question where
  | mk : String → QuestionType → QuestionCategory → List Question → String →
         Int → List String → Question

/-- Field `Question.text`. -/
@[simp] def Question.text : Question → String
  | .mk t _ _ _ _ _ _ => t

/-- Field `Question.type`. -/
@[simp] def Question.type : Question → QuestionType
  | .mk _ ty _ _ _ _ _ => ty

/-- Field `Question.category`. -/
@[simp] def Question.category : Question → QuestionCategory
  | .mk _ _ c _ _ _ _ => c

/-- Field `Question.follow_ups`. -/
@[simp] def Question.follow_ups : Question → List Question
  | .mk _ _ _ f _ _ _ => f

/-- Field `Question.context`. -/
@[simp] def Question.context : Question → String
  | .mk _ _ _ _ cx _ _ => cx

/-- Field `Question.importance`. -/
@[simp] def Question.importance : Question → Int
  | .mk _ _ _ _ _ i _ => i

/-- Field `Question.tags`. -/
@[simp] def Question.tags : Question → List String
  | .mk _ _ _ _ _ _ t => t

/-- `Question.__init__`: string type/category looked up by value with
fallbacks `OPEN_ENDED`/`GENERAL`; importance clamped by
`max(1, min(5, importance))`. -/
def Question.init (text : String) (question_type : StrOr QuestionType)
    (category : StrOr QuestionCategory) (follow_ups : Option (List Question))
    (context : String) (importance : Int) (tags : Option (List String)) : Question :=
  Question.mk text
    (match question_type with
     | .str s => (QuestionType.ofValue s).getD .OPEN_ENDED
     | .enum t => t)
    (match category with
     | .str s => (QuestionCategory.ofValue s).getD .GENERAL
     | .enum c => c)
    (follow_ups.getD []) context (max 1 (min 5 importance)) (tags.getD [])

/-- `Question.set_importance`: stores `max(1, min(5, importance))`. -/
def Question.set_importance : Question → Int → Question
  | .mk t ty c f cx _ tg, i => .mk t ty c f cx (max 1 (min 5 i)) tg

mutual

/-- `Question.to_dict`: text/type/category/importance/tags unconditionally,
then `context` and `follow_ups` only when non-empty. -/
def Question.to_dict : Question → Dict
  | .mk t ty c fups cx imp tags =>
    [("text", .str t), ("type", .str ty.value), ("category", .str c.value),
     ("importance", .int imp), ("tags", .list (tags.map .str))]
    ++ (if cx = "" then [] else [("context", Value.str cx)])
    ++ (if fups.isEmpty then []
        else [("follow_ups", Value.list (Question.listDicts fups))])

/-- The list `[q.to_dict() for q in follow_ups]`. -/
def Question.listDicts : List Question → List Value
  | [] => []
  | q :: r => Value.dict q.to_dict :: Question.listDicts r

end

mutual

/-- `Question.to_prompt_text`: indented `Question:` header, an optional
`Context:` line, then a `Follow-up questions:` label and each follow-up's
block at the next indent level. -/
def Question.to_prompt_text : Question → Nat → String
  | .mk t _ _ fups cx _ _, indent_level =>
    let indent := indentOf indent_level
    let lines := [indent ++ "Question: " ++ t]
    let lines :=
      if cx = "" then lines else lines ++ [indent ++ "Context: " ++ cx]
    let lines :=
      if fups.isEmpty then lines
      else lines ++ ([indent ++ "Follow-up questions:"]
           ++ Question.listTexts fups (indent_level + 1))
    String.intercalate "\n" lines

/-- The blocks of a list of follow-up questions at level `l`. -/
def Question.listTexts : List Question → Nat → List String
  | [], _ => []
  | q :: r, l => q.to_prompt_text l :: Question.listTexts r l

end

/-- The `Requirement` class of `prompts/requirement.py`. -/
structure Requirement where
  description : String
  type : RequirementType
  priority : RequirementPriority
  rationale : String
  acceptance_criteria : List String
  tags : List String

/-- `Requirement.__init__`: string type/priority looked up by value with
fallbacks `FUNCTIONAL`/`MEDIUM`; `None` lists become `[]`. -/
def Requirement.init (description : String)
    (requirement_type : StrOr RequirementType)
    (priority : StrOr RequirementPriority) (rationale : String)
    (acceptance_criteria : Option (List String))
    (tags : Option (List String)) : Requirement :=
  { description := description
    type :=
      match requirement_type with
      | .str s => (RequirementType.ofValue s).getD .FUNCTIONAL
      | .enum t => t
    priority :=
      match priority with
      | .str s => (RequirementPriority.ofValue s).getD .MEDIUM
      | .enum p => p
    rationale := rationale
    acceptance_criteria := acceptance_criteria.getD []
    tags := tags.getD [] }

/-- `Requirement.set_priority`: a string is looked up by value with
fallback `MEDIUM`; an enum member is stored as-is. -/
def Requirement.set_priority (r : Requirement)
    (priority : StrOr RequirementPriority) : Requirement :=
  { r with priority :=
      match priority with
      | .str s => (RequirementPriority.ofValue s).getD .MEDIUM
      | .enum p => p }

/-- `Requirement.to_dict`: description/type/priority/tags unconditionally,
then `rationale` and `acceptance_criteria` only when non-empty. -/
def Requirement.to_dict (r : Requirement) : Dict :=
  [("description", .str r.description), ("type", .str r.type.value),
   ("priority", .str r.priority.value), ("tags", .list (r.tags.map .str))]
  ++ (if r.rationale = "" then [] else [("rationale", Value.str r.rationale)])
  ++ (if r.acceptance_criteria.isEmpty then []
      else [("acceptance_criteria", Value.list (r.acceptance_criteria.map .str))])

/-- `Requirement.to_prompt_text`: `Requirement (priority): description`
header, optional `Rationale:` line, then an `Acceptance Criteria:` label
(with no blank line before it) and one `- item` line per criterion. -/
def Requirement.to_prompt_text (r : Requirement) : String :=
  let lines := ["Requirement (" ++ r.priority.value ++ "): " ++ r.description]
  let lines :=
    if r.rationale = "" then lines
    else lines ++ ["Rationale: " ++ r.rationale]
  let lines :=
    if r.acceptance_criteria.isEmpty then lines
    else lines ++ (["Acceptance Criteria:"]
         ++ r.acceptance_criteria.map (fun c => "- " ++ c))
  String.intercalate "\n" lines

/-- The `Role` class of `roles/role.py`. -/
structure Role where
  name : String
  expertise : String
  responsibilities : List String
  focus_areas : List String
  description : String

/-- `Role.__init__`: `None` optionals become `""`/`[]`. -/
def Role.init (name : String) (expertise : Option String)
    (responsibilities : Option (List String))
    (focus_areas : Option (List String)) (description : Option String) : Role :=
  { name := name, expertise := expertise.getD "",
    responsibilities := responsibilities.getD [],
    focus_areas := focus_areas.getD [], description := description.getD "" }

/-- `Role.to_dict`: all five fields, unconditionally. -/
def Role.to_dict (r : Role) : Dict :=
  [("name", .str r.name), ("expertise", .str r.expertise),
   ("responsibilities", .list (r.responsibilities.map .str)),
   ("focus_areas", .list (r.focus_areas.map .str)),
   ("description", .str r.description)]

/-- `Role.to_prompt_text`: `Role:` header, optional `Expertise:` line,
description preceded by a blank line, then `Responsibilities:` and
`Focus Areas:` blocks each preceded by a blank line. -/
def Role.to_prompt_text (r : Role) : String :=
  let lines := ["Role: " ++ r.name]
  let lines :=
    if r.expertise = "" then lines else lines ++ ["Expertise: " ++ r.expertise]
  let lines :=
    if r.description = "" then lines else lines ++ ["\n" ++ r.description]
  let lines :=
    if r.responsibilities.isEmpty then lines
    else lines ++ (["\nResponsibilities:"]
         ++ r.responsibilities.map (fun x => "- " ++ x))
  let lines :=
    if r.focus_areas.isEmpty then lines
    else lines ++ (["\nFocus Areas:"]
         ++ r.focus_areas.map (fun x => "- " ++ x))
  String.intercalate "\n" lines

/-- The `Context` class of `contexts/context.py`. `additional_info` starts
empty and is filled through `add_additional_info`. -/
structure Context where
  background : String
  domain : String
  constraints : List String
  assumptions : List String
  resources : List String
  stakeholders : List String
  additional_info : Dict

/-- `Context.__init__`: `None` lists become `[]`; `additional_info = {}`. -/
def Context.init (background : String) (domain : String)
    (constraints : Option (List String)) (assumptions : Option (List String))
    (resources : Option (List String))
    (stakeholders : Option (List String)) : Context :=
  { background := background, domain := domain,
    constraints := constraints.getD [], assumptions := assumptions.getD [],
    resources := resources.getD [], stakeholders := stakeholders.getD [],
    additional_info := [] }

/-- `Context.add_additional_info`: `self.additional_info[key] = value`. -/
def Context.add_additional_info (c : Context) (key : String) (value : Value) :
    Context :=
  { c with additional_info := dictInsert c.additional_info key value }

/-- `Context.to_dict`: the six named fields, then every `additional_info`
entry written into the same mapping (overwriting an equal key). -/
def Context.to_dict (c : Context) : Dict :=
  dictInsertMany
    [("background", .str c.background), ("domain", .str c.domain),
     ("constraints", .list (c.constraints.map .str)),
     ("assumptions", .list (c.assumptions.map .str)),
     ("resources", .list (c.resources.map .str)),
     ("stakeholders", .list (c.stakeholders.map .str))]
    c.additional_info

/-- Python's `str(value)` for the value shapes the library stores in
`additional_info` (strings and numbers; the repr of a nested list or dict
is not modelled — no rendering theorem below evaluates those shapes). -/
def valueText : Value → String
  | .str s => s
  | .int n => toString n
  | .list _ => ""
  | .dict _ => ""

/-- One `additional_info` entry of `Context.to_prompt_text`: a list value
renders as a labelled block of `- item` lines, anything else as a single
`key: value` line, each label preceded by a blank line. -/
def addInfoLines : String × Value → List String
  | (k, .list vs) => ("\n" ++ k ++ ":") :: vs.map (fun v => "- " ++ valueText v)
  | (k, v) => ["\n" ++ k ++ ": " ++ valueText v]

/-- `Context.to_prompt_text`: background, `Domain:` line, then the four
list blocks and the `additional_info` blocks, each label preceded by a
blank line; empty fields contribute nothing. -/
def Context.to_prompt_text (c : Context) : String :=
  let lines : List String := []
  let lines := if c.background = "" then lines else lines ++ [c.background]
  let lines :=
    if c.domain = "" then lines else lines ++ ["Domain: " ++ c.domain]
  let lines :=
    if c.constraints.isEmpty then lines
    else lines ++ (["\nConstraints:"] ++ c.constraints.map (fun x => "- " ++ x))
  let lines :=
    if c.assumptions.isEmpty then lines
    else lines ++ (["\nAssumptions:"] ++ c.assumptions.map (fun x => "- " ++ x))
  let lines :=
    if c.resources.isEmpty then lines
    else lines ++ (["\nAvailable Resources:"]
         ++ c.resources.map (fun x => "- " ++ x))
  let lines :=
    if c.stakeholders.isEmpty then lines
    else lines ++ (["\nStakeholders:"]
         ++ c.stakeholders.map (fun x => "- " ++ x))
  let lines := lines ++ (c.additional_info.map addInfoLines).flatten
  String.intercalate "\n" lines

/-- The `Branch` class of `roles/branch.py`. -/
structure Branch where
  name : String
  description : String
  thoughts : List Thought
  owner : String
  priority : Int
  tags : List String

/-- `Branch.__init__`: priority clamped by `max(1, min(5, priority))`. -/
def Branch.init (name : String) (description : String)
    (thoughts : Option (List Thought)) (owner : String) (priority : Int)
    (tags : Option (List String)) : Branch :=
  { name := name, description := description, thoughts := thoughts.getD [],
    owner := owner, priority := max 1 (min 5 priority), tags := tags.getD [] }

/-- `Branch.set_priority`: stores `max(1, min(5, priority))`. -/
def Branch.set_priority (b : Branch) (priority : Int) : Branch :=
  { b with priority := max 1 (min 5 priority) }

/-- `Branch.to_dict`: name/description/owner/priority/tags
unconditionally, then `thoughts` only when non-empty. -/
def Branch.to_dict (b : Branch) : Dict :=
  [("name", .str b.name), ("description", .str b.description),
   ("owner", .str b.owner), ("priority", .int b.priority),
   ("tags", .list (b.tags.map .str))]
  ++ (if b.thoughts.isEmpty then []
      else [("thoughts", Value.list (Thought.listDicts b.thoughts))])

/-- `Branch.to_prompt_text`: `Branch name:` header, optional description
and `Owner:` lines, then every thought rendered at indent level 1. -/
def Branch.to_prompt_text (b : Branch) : String :=
  let lines := ["Branch " ++ b.name ++ ":"]
  let lines :=
    if b.description = "" then lines else lines ++ [b.description]
  let lines := if b.owner = "" then lines else lines ++ ["Owner: " ++ b.owner]
  let lines := lines ++ b.thoughts.map (fun t => t.to_prompt_text 1)
  String.intercalate "\n" lines

/-- The `Department` class of `roles/department.py`. `roles` starts empty
and is filled through `add_role`. -/
structure Department where
  name : String
  mission : String
  functions : List String
  expertise_areas : List String
  description : String
  roles : List Role

/-- `Department.__init__`: `None` optionals become `""`/`[]`; `roles = []`. -/
def Department.init (name : String) (mission : Option String)
    (functions : Option (List String)) (expertise_areas : Option (List String))
    (description : Option String) : Department :=
  { name := name, mission := mission.getD "", functions := functions.getD [],
    expertise_areas := expertise_areas.getD [],
    description := description.getD "", roles := [] }

/-- `Department.add_role`: appends the role. -/
def Department.add_role (d : Department) (r : Role) : Department :=
  { d with roles := d.roles ++ [r] }

/-- `Department.to_dict`: all six fields unconditionally — including
`roles`, which is present (as `[]`) even when the department has no
roles. -/
def Department.to_dict (d : Department) : Dict :=
  [("name", .str d.name), ("mission", .str d.mission),
   ("functions", .list (d.functions.map .str)),
   ("expertise_areas", .list (d.expertise_areas.map .str)),
   ("description", .str d.description),
   ("roles", .list (d.roles.map (fun r => .dict r.to_dict)))]

/-- A role's full block with every line of it prefixed by two spaces
(`Department.to_prompt_text`'s per-role indentation). -/
def indentBlock (s : String) : String :=
  String.intercalate "\n" ((s.splitOn "\n").map (fun ln => "  " ++ ln))

/-- `Department.to_prompt_text`: `Department:` header, optional `Mission:`
line, description and the two list blocks each preceded by a blank line,
then a `Department Roles:` block with each role's text indented by two
spaces. -/
def Department.to_prompt_text (d : Department) : String :=
  let lines := ["Department: " ++ d.name]
  let lines :=
    if d.mission = "" then lines else lines ++ ["Mission: " ++ d.mission]
  let lines :=
    if d.description = "" then lines else lines ++ ["\n" ++ d.description]
  let lines :=
    if d.functions.isEmpty then lines
    else lines ++ (["\nKey Functions:"] ++ d.functions.map (fun x => "- " ++ x))
  let lines :=
    if d.expertise_areas.isEmpty then lines
    else lines ++ (["\nAreas of Expertise:"]
         ++ d.expertise_areas.map (fun x => "- " ++ x))
  let lines :=
    if d.roles.isEmpty then lines
    else lines ++ (["\nDepartment Roles:"]
         ++ d.roles.map (fun r => indentBlock r.to_prompt_text))
  String.intercalate "\n" lines

/-- The `PromptBuilder` class of `prompts/prompt.py`. -/
structure PromptBuilder where
  title : String
  roles : List Role
  departments : List Department
  context : Option Context
  branches : List Branch
  questions : List Question
  requirements : List Requirement
  approach : String
  output_format : String

/-- `PromptBuilder.__init__`: only the title; everything else empty. -/
def PromptBuilder.init (title : String) : PromptBuilder :=
  { title := title, roles := [], departments := [], context := none,
    branches := [], questions := [], requirements := [], approach := "",
    output_format := "" }

/-- The department-list update of `PromptBuilder.add_role_to_department`:
walk the list, append the role to the first department with the given
name and stop; if none matches, append `Department(name=n)` holding just
that role. -/
def addRoleToDeptList : List Department → Role → String → List Department
  | [], r, n => [(Department.init n none none none none).add_role r]
  | d :: rest, r, n =>
    if d.name = n then d.add_role r :: rest
    else d :: addRoleToDeptList rest r n

/-- `PromptBuilder.add_role_to_department`. -/
def PromptBuilder.add_role_to_department (b : PromptBuilder) (role : Role)
    (department_name : String) : PromptBuilder :=
  { b with departments := addRoleToDeptList b.departments role department_name }

/-- `PromptBuilder.build`: the accumulated `sections` list, joined with
newlines. Every `let` step mirrors one `if`-guarded run of `append`s of
the Python method, in source order. -/
def PromptBuilder.build (b : PromptBuilder) : String :=
  let sections : List String := ["# " ++ b.title, ""]
  let sections :=
    if b.departments.isEmpty then sections
    else sections ++ (["## Organizational Context"]
         ++ (b.departments.map (fun d => [d.to_prompt_text, ""])).flatten)
  let sections :=
    if b.roles.isEmpty then sections
    else sections ++ (["## Roles"]
         ++ (b.roles.map (fun r => [r.to_prompt_text, ""])).flatten)
  let sections :=
    match b.context with
    | none => sections
    | some c => sections ++ ["## Context", c.to_prompt_text, ""]
  let sections :=
    if b.branches.isEmpty then sections
    else sections ++ (["## Analysis Structure"]
         ++ (b.branches.map (fun br => [br.to_prompt_text, ""])).flatten)
  let sections :=
    if b.questions.isEmpty then sections
    else sections ++ (["## Questions to Address"]
         ++ (b.questions.map (fun q => [q.to_prompt_text 0, ""])).flatten)
  let sections :=
    if b.requirements.isEmpty then sections
    else sections ++ (["## Requirements"]
         ++ (b.requirements.map (fun r => [r.to_prompt_text, ""])).flatten)
  let sections :=
    if b.approach = "" then sections
    else sections ++ ["## Approach", b.approach, ""]
  let sections :=
    if b.output_format = "" then sections
    else sections ++ ["## Output Format", b.output_format]
  String.intercalate "\n" sections

/-- Modelled from the spec's words for the composer contract (§4.5): a
populated section is its heading line followed by its blocks; an empty
section contributes no lines at all. -/
def sectionLines (heading : String) (blocks : List String) : List String :=
  if blocks.isEmpty then [] else heading :: blocks

/-- Modelled from the spec's words for the composer contract (§4.5): the
document is the title heading, a blank line, and the nine sections in
their fixed order, each rendered by `sectionLines`. -/
def PromptBuilder.buildSpec (b : PromptBuilder) : String :=
  String.intercalate "\n"
    (["# " ++ b.title, ""]
     ++ sectionLines "## Organizational Context"
          ((b.departments.map (fun d => [d.to_prompt_text, ""])).flatten)
     ++ sectionLines "## Roles"
          ((b.roles.map (fun r => [r.to_prompt_text, ""])).flatten)
     ++ sectionLines "## Context"
          (match b.context with
           | none => []
           | some c => [c.to_prompt_text, ""])
     ++ sectionLines "## Analysis Structure"
          ((b.branches.map (fun br => [br.to_prompt_text, ""])).flatten)
     ++ sectionLines "## Questions to Address"
          ((b.questions.map (fun q => [q.to_prompt_text 0, ""])).flatten)
     ++ sectionLines "## Requirements"
          ((b.requirements.map (fun r => [r.to_prompt_text, ""])).flatten)
     ++ sectionLines "## Approach"
          (if b.approach = "" then [] else [b.approach, ""])
     ++ sectionLines "## Output Format"
          (if b.output_format = "" then [] else [b.output_format]))

/-- The strings held in a list of `Value`s (skipping non-string shapes),
used when a reconstructed node reads back a list-of-text field. -/
def strsOf : List Value → List String
  | [] => []
  | .str s :: r => s :: strsOf r
  | _ :: r => strsOf r

mutual

/-- Reconstruction of a `Thought` from a dictionary, per the round-trip
property: scan the entries in order and feed each recognised field to the
`Thought` constructor semantics (the `type` string goes through the same
enum-by-value lookup with the `CONSIDERATION` fallback; `sub_thoughts`
entries are reconstructed recursively). -/
def Thought.fromEntries : List (String × Value) → Thought → Thought
  | [], t => t
  | ("content", .str s) :: r, .mk _ ty o su rf tg =>
    Thought.fromEntries r (.mk s ty o su rf tg)
  | ("type", .str s) :: r, .mk c _ o su rf tg =>
    Thought.fromEntries r
      (.mk c ((ThoughtType.ofValue s).getD .CONSIDERATION) o su rf tg)
  | ("order", .int n) :: r, .mk c ty _ su rf tg =>
    Thought.fromEntries r (.mk c ty n su rf tg)
  | ("sub_thoughts", .list vs) :: r, .mk c ty o _ rf tg =>
    Thought.fromEntries r (.mk c ty o (Thought.listFromValues vs) rf tg)
  | ("references", .list vs) :: r, .mk c ty o su _ tg =>
    Thought.fromEntries r (.mk c ty o su (strsOf vs) tg)
  | ("tags", .list vs) :: r, .mk c ty o su rf _ =>
    Thought.fromEntries r (.mk c ty o su rf (strsOf vs))
  | _ :: r, t => Thought.fromEntries r t

/-- Reconstruct each nested `sub_thoughts` dictionary. -/
def Thought.listFromValues : List Value → List Thought
  | [] => []
  | .dict d :: r =>
    Thought.fromEntries d (.mk "" .CONSIDERATION 0 [] [] [])
    :: Thought.listFromValues r
  | _ :: r => Thought.listFromValues r

end

/-- Reconstruction of a `Thought` from its dictionary projection: start
from an all-default thought and apply every entry. -/
def Thought.fromDict (d : Dict) : Thought :=
  Thought.fromEntries d (.mk "" .CONSIDERATION 0 [] [] [])

/-- The six named keys of `Context.to_dict`. -/
def contextNamedKeys : List String :=
  ["background", "domain", "constraints", "assumptions", "resources",
   "stakeholders"]

/-- The string stored under `k`, when it is a string (else `""`). -/
def getStr (d : Dict) (k : String) : String :=
  match List.lookup k d with
  | some (.str s) => s
  | _ => ""

/-- The list of strings stored under `k`, when it is a list (else `[]`). -/
def getStrs (d : Dict) (k : String) : List String :=
  match List.lookup k d with
  | some (.list vs) => strsOf vs
  | _ => []

/-- Reconstruction of a `Context` from its dictionary projection, per the
round-trip property: the six named fields are read back by key and every
other entry returns to `additional_info`. -/
def Context.fromDict (d : Dict) : Context :=
  { background := getStr d "background", domain := getStr d "domain",
    constraints := getStrs d "constraints",
    assumptions := getStrs d "assumptions",
    resources := getStrs d "resources",
    stakeholders := getStrs d "stakeholders",
    additional_info := d.filter (fun p => !(contextNamedKeys.contains p.1)) }

/-- `String.intercalate.go` peels a left factor off its accumulator. -/
theorem intercalate_go_append (s : String) :
    ∀ (l : List String) (a b : String),
      String.intercalate.go (a ++ b) s l = a ++ String.intercalate.go b s l := by
  intro l
  induction l with
  | nil => intro a b; simp [String.intercalate.go]
  | cons c r ih =>
    intro a b
    simp only [String.intercalate.go]
    rw [String.append_assoc, String.append_assoc, ih,
        ← String.append_assoc b s c]

/-- `intercalate` on the empty list. -/
theorem intercalate_nil (s : String) : String.intercalate s [] = "" := rfl

/-- `intercalate` on a one-element list. -/
theorem intercalate_single (s a : String) :
    String.intercalate s [a] = a := rfl

/-- `intercalate` over a cons with a non-empty tail. -/
theorem intercalate_cons_ne (s a : String) (l : List String) (h : l ≠ []) :
    String.intercalate s (a :: l) = a ++ s ++ String.intercalate s l := by
  match l, h with
  | b :: r, _ =>
    show String.intercalate.go a s (b :: r) = a ++ s ++ String.intercalate.go b s r
    simp only [String.intercalate.go]
    rw [String.append_assoc a s b, intercalate_go_append, intercalate_go_append]
    rw [← String.append_assoc a s _]

/-- `intercalate` distributes over append of two non-empty lists. -/
theorem intercalate_append (s : String) (l1 l2 : List String)
    (h1 : l1 ≠ []) (h2 : l2 ≠ []) :
    String.intercalate s (l1 ++ l2)
      = String.intercalate s l1 ++ s ++ String.intercalate s l2 := by
  induction l1 with
  | nil => exact absurd rfl h1
  | cons a r ih =>
    cases r with
    | nil =>
      rw [intercalate_single, List.singleton_append, intercalate_cons_ne s a l2 h2]
    | cons b r2 =>
      rw [List.cons_append,
          intercalate_cons_ne s a ((b :: r2) ++ l2) (by simp),
          intercalate_cons_ne s a (b :: r2) (by simp),
          ih (by simp)]
      simp [String.append_assoc]

/-- Splicing an already-joined non-empty block into a joined list gives
the join of the concatenation. -/
theorem intercalate_flatten_middle (s : String) (xs ys zs : List String)
    (hy : ys ≠ []) :
    String.intercalate s (xs ++ [String.intercalate s ys] ++ zs)
      = String.intercalate s (xs ++ ys ++ zs) := by
  cases xs with
  | nil =>
    cases zs with
    | nil =>
      simp only [List.nil_append, List.append_nil]
      rw [intercalate_single]
    | cons z r =>
      simp only [List.nil_append]
      rw [intercalate_append s [String.intercalate s ys] (z :: r) (by simp) (by simp),
          intercalate_single,
          intercalate_append s ys (z :: r) hy (by simp)]
  | cons x r =>
    cases zs with
    | nil =>
      simp only [List.append_nil]
      rw [intercalate_append s (x :: r) [String.intercalate s ys] (by simp) (by simp),
          intercalate_single,
          intercalate_append s (x :: r) ys (by simp) hy]
    | cons z rz =>
      rw [intercalate_append s ((x :: r) ++ [String.intercalate s ys]) (z :: rz)
            (by simp) (by simp),
          intercalate_append s (x :: r) [String.intercalate s ys] (by simp) (by simp),
          intercalate_single,
          intercalate_append s ((x :: r) ++ ys) (z :: rz) (by simp) (by simp),
          intercalate_append s (x :: r) ys (by simp) hy]

/-- An accumulator-extending `if` pulled out to the right. -/
theorem ite_acc (c : Prop) [Decidable c] (acc x : List String) :
    (if c then acc else acc ++ x) = acc ++ (if c then [] else x) := by
  split <;> simp

/-- An accumulator-extending `Option` match pulled out to the right. -/
theorem match_acc (o : Option Context) (acc : List String)
    (f : Context → List String) :
    (match o with | none => acc | some c => acc ++ f c)
      = acc ++ (match o with | none => [] | some c => f c) := by
  cases o <;> simp

/-- The flattened two-line blocks of a list are empty exactly when the
list is. -/
theorem flatten_two_isEmpty {α : Type} (l : List α) (f g : α → String) :
    ((l.map (fun x => [f x, g x])).flatten).isEmpty = l.isEmpty := by
  cases l <;> simp

/-- A guarded heading-plus-blocks segment is `sectionLines` of its
blocks. -/
theorem segment_blocks {α : Type} (h : String) (l : List α) (f g : α → String) :
    (if l.isEmpty then ([] : List String)
     else [h] ++ (l.map (fun x => [f x, g x])).flatten)
      = sectionLines h ((l.map (fun x => [f x, g x])).flatten) := by
  rw [sectionLines, flatten_two_isEmpty]
  cases l <;> simp

/-- A guarded three-line text segment is `sectionLines` of its lines. -/
theorem segment_para (h a z : String) :
    (if a = "" then ([] : List String) else [h, a, z])
      = sectionLines h (if a = "" then [] else [a, z]) := by
  rcases eq_or_ne a "" with e | e <;> simp [sectionLines, e]

/-- A guarded two-line text segment is `sectionLines` of its line. -/
theorem segment_last (h a : String) :
    (if a = "" then ([] : List String) else [h, a])
      = sectionLines h (if a = "" then [] else [a]) := by
  rcases eq_or_ne a "" with e | e <;> simp [sectionLines, e]

/-- The context segment is `sectionLines` of its lines. -/
theorem segment_ctx (o : Option Context) :
    (match o with
     | none => ([] : List String)
     | some c => ["## Context", c.to_prompt_text, ""])
      = sectionLines "## Context"
          (match o with | none => [] | some c => [c.to_prompt_text, ""]) := by
  cases o <;> simp [sectionLines]

/-- C1: for every `PromptBuilder` state, `build()` emits the sections in
the fixed order — title heading, blank line, Organizational Context (one
block per department), Roles, Context, Analysis Structure, Questions to
Address, Requirements, Approach, Output Format — and a section whose
backing collection or field is empty contributes nothing at all to the
output (no heading line and no blank line). -/
theorem build_emits_sections_in_fixed_order (b : PromptBuilder) :
    b.build = b.buildSpec := by
  obtain ⟨title, roles, departments, context, branches, questions,
          requirements, approach, output_format⟩ := b
  simp only [PromptBuilder.build, PromptBuilder.buildSpec]
  simp only [ite_acc, match_acc]
  have e1 :
      (if departments.isEmpty = true then ([] : List String)
       else ["## Organizational Context"]
            ++ (departments.map (fun d => [d.to_prompt_text, ""])).flatten)
        = sectionLines "## Organizational Context"
            ((departments.map (fun d => [d.to_prompt_text, ""])).flatten) := by
    cases departments <;> simp [sectionLines]
  have e2 :
      (if roles.isEmpty = true then ([] : List String)
       else ["## Roles"] ++ (roles.map (fun r => [r.to_prompt_text, ""])).flatten)
        = sectionLines "## Roles"
            ((roles.map (fun r => [r.to_prompt_text, ""])).flatten) := by
    cases roles <;> simp [sectionLines]
  have e3 :
      (match context with
       | none => ([] : List String)
       | some c => ["## Context", c.to_prompt_text, ""])
        = sectionLines "## Context"
            (match context with | none => [] | some c => [c.to_prompt_text, ""]) := by
    cases context <;> simp [sectionLines]
  have e4 :
      (if branches.isEmpty = true then ([] : List String)
       else ["## Analysis Structure"]
            ++ (branches.map (fun br => [br.to_prompt_text, ""])).flatten)
        = sectionLines "## Analysis Structure"
            ((branches.map (fun br => [br.to_prompt_text, ""])).flatten) := by
    cases branches <;> simp [sectionLines]
  have e5 :
      (if questions.isEmpty = true then ([] : List String)
       else ["## Questions to Address"]
            ++ (questions.map (fun q => [q.to_prompt_text 0, ""])).flatten)
        = sectionLines "## Questions to Address"
            ((questions.map (fun q => [q.to_prompt_text 0, ""])).flatten) := by
    cases questions <;> simp [sectionLines]
  have e6 :
      (if requirements.isEmpty = true then ([] : List String)
       else ["## Requirements"]
            ++ (requirements.map (fun r => [r.to_prompt_text, ""])).flatten)
        = sectionLines "## Requirements"
            ((requirements.map (fun r => [r.to_prompt_text, ""])).flatten) := by
    cases requirements <;> simp [sectionLines]
  have e7 :
      (if approach = "" then ([] : List String)
       else ["## Approach", approach, ""])
        = sectionLines "## Approach" (if approach = "" then [] else [approach, ""]) := by
    rcases eq_or_ne approach "" with e | e <;> simp [sectionLines, e]
  have e8 :
      (if output_format = "" then ([] : List String)
       else ["## Output Format", output_format])
        = sectionLines "## Output Format"
            (if output_format = "" then [] else [output_format]) := by
    rcases eq_or_ne output_format "" with e | e <;> simp [sectionLines, e]
  rw [e1, e2, e3, e4, e5, e6, e7, e8]

/-- C2: constructing a `Question` with importance `i` or calling
`set_importance(i)`, and constructing a `Branch` with priority `i` or
calling `set_priority(i)`, stores exactly `max(1, min(5, i))`, and the
stored value always lies in `[1, 5]`. -/
theorem importance_and_priority_clamped (i : Int) (text : String)
    (qt : StrOr QuestionType) (qc : StrOr QuestionCategory)
    (fups : Option (List Question)) (cx : String) (tg : Option (List String))
    (q : Question) (bn bd bo : String) (bth : Option (List Thought))
    (btg : Option (List String)) (br : Branch) :
    ((Question.init text qt qc fups cx i tg).importance = max 1 (min 5 i)
     ∧ 1 ≤ (Question.init text qt qc fups cx i tg).importance
     ∧ (Question.init text qt qc fups cx i tg).importance ≤ 5)
    ∧ ((q.set_importance i).importance = max 1 (min 5 i)
       ∧ 1 ≤ (q.set_importance i).importance
       ∧ (q.set_importance i).importance ≤ 5)
    ∧ ((Branch.init bn bd bth bo i btg).priority = max 1 (min 5 i)
       ∧ 1 ≤ (Branch.init bn bd bth bo i btg).priority
       ∧ (Branch.init bn bd bth bo i btg).priority ≤ 5)
    ∧ ((br.set_priority i).priority = max 1 (min 5 i)
       ∧ 1 ≤ (br.set_priority i).priority
       ∧ (br.set_priority i).priority ≤ 5) := by
  cases q with
  | mk t ty c f cx2 imp tg2 =>
    simp only [Question.init, Question.set_importance, Question.importance,
               Branch.init, Branch.set_priority]
    refine ⟨⟨trivial, ?_, ?_⟩, ⟨trivial, ?_, ?_⟩, ⟨trivial, ?_, ?_⟩,
            ⟨trivial, ?_, ?_⟩⟩ <;>
      first
        | exact le_max_left _ _
        | exact max_le (by norm_num) (min_le_left _ _)

/-- Looking a member's own value back up finds that member. -/
theorem thoughtType_ofValue_self (t : ThoughtType) :
    ThoughtType.ofValue t.value = some t := by cases t <;> rfl

/-- A successful value lookup returns a member with that value. -/
theorem thoughtType_ofValue_sound {s : String} {t : ThoughtType}
    (h : ThoughtType.ofValue s = some t) : t.value = s := by
  unfold ThoughtType.ofValue at h
  have hp := List.find?_some h
  exact eq_of_beq hp

/-- Looking a member's own value back up finds that member. -/
theorem questionType_ofValue_self (t : QuestionType) :
    QuestionType.ofValue t.value = some t := by cases t <;> rfl

/-- A successful value lookup returns a member with that value. -/
theorem questionType_ofValue_sound {s : String} {t : QuestionType}
    (h : QuestionType.ofValue s = some t) : t.value = s := by
  unfold QuestionType.ofValue at h
  have hp := List.find?_some h
  exact eq_of_beq hp

/-- Looking a member's own value back up finds that member. -/
theorem questionCategory_ofValue_self (t : QuestionCategory) :
    QuestionCategory.ofValue t.value = some t := by cases t <;> rfl

/-- A successful value lookup returns a member with that value. -/
theorem questionCategory_ofValue_sound {s : String} {t : QuestionCategory}
    (h : QuestionCategory.ofValue s = some t) : t.value = s := by
  unfold QuestionCategory.ofValue at h
  have hp := List.find?_some h
  exact eq_of_beq hp

/-- Looking a member's own value back up finds that member. -/
theorem requirementType_ofValue_self (t : RequirementType) :
    RequirementType.ofValue t.value = some t := by cases t <;> rfl

/-- A successful value lookup returns a member with that value. -/
theorem requirementType_ofValue_sound {s : String} {t : RequirementType}
    (h : RequirementType.ofValue s = some t) : t.value = s := by
  unfold RequirementType.ofValue at h
  have hp := List.find?_some h
  exact eq_of_beq hp

/-- Looking a member's own value back up finds that member. -/
theorem requirementPriority_ofValue_self (t : RequirementPriority) :
    RequirementPriority.ofValue t.value = some t := by cases t <;> rfl

/-- A successful value lookup returns a member with that value. -/
theorem requirementPriority_ofValue_sound {s : String} {t : RequirementPriority}
    (h : RequirementPriority.ofValue s = some t) : t.value = s := by
  unfold RequirementPriority.ofValue at h
  have hp := List.find?_some h
  exact eq_of_beq hp

/-- The coercion result when the string is some member's value. -/
theorem thoughtType_coerce_exact {s : String} (m : ThoughtType)
    (h : m.value = s) :
    (ThoughtType.ofValue s).getD .CONSIDERATION = m := by
  subst h; rw [thoughtType_ofValue_self]; rfl

/-- The coercion result when no member has the string as its value. -/
theorem thoughtType_coerce_default {s : String}
    (h : ∀ m : ThoughtType, m.value ≠ s) :
    (ThoughtType.ofValue s).getD .CONSIDERATION = .CONSIDERATION := by
  cases heq : ThoughtType.ofValue s with
  | none => rfl
  | some m => exact absurd (thoughtType_ofValue_sound heq) (h m)

/-- The coercion result when the string is some member's value. -/
theorem questionType_coerce_exact {s : String} (m : QuestionType)
    (h : m.value = s) :
    (QuestionType.ofValue s).getD .OPEN_ENDED = m := by
  subst h; rw [questionType_ofValue_self]; rfl

/-- The coercion result when no member has the string as its value. -/
theorem questionType_coerce_default {s : String}
    (h : ∀ m : QuestionType, m.value ≠ s) :
    (QuestionType.ofValue s).getD .OPEN_ENDED = .OPEN_ENDED := by
  cases heq : QuestionType.ofValue s with
  | none => rfl
  | some m => exact absurd (questionType_ofValue_sound heq) (h m)

/-- The coercion result when the string is some member's value. -/
theorem questionCategory_coerce_exact {s : String} (m : QuestionCategory)
    (h : m.value = s) :
    (QuestionCategory.ofValue s).getD .GENERAL = m := by
  subst h; rw [questionCategory_ofValue_self]; rfl

/-- The coercion result when no member has the string as its value. -/
theorem questionCategory_coerce_default {s : String}
    (h : ∀ m : QuestionCategory, m.value ≠ s) :
    (QuestionCategory.ofValue s).getD .GENERAL = .GENERAL := by
  cases heq : QuestionCategory.ofValue s with
  | none => rfl
  | some m => exact absurd (questionCategory_ofValue_sound heq) (h m)

/-- The coercion result when the string is some member's value. -/
theorem requirementType_coerce_exact {s : String} (m : RequirementType)
    (h : m.value = s) :
    (RequirementType.ofValue s).getD .FUNCTIONAL = m := by
  subst h; rw [requirementType_ofValue_self]; rfl

/-- The coercion result when no member has the string as its value. -/
theorem requirementType_coerce_default {s : String}
    (h : ∀ m : RequirementType, m.value ≠ s) :
    (RequirementType.ofValue s).getD .FUNCTIONAL = .FUNCTIONAL := by
  cases heq : RequirementType.ofValue s with
  | none => rfl
  | some m => exact absurd (requirementType_ofValue_sound heq) (h m)

/-- The coercion result when the string is some member's value. -/
theorem requirementPriority_coerce_exact {s : String} (m : RequirementPriority)
    (h : m.value = s) :
    (RequirementPriority.ofValue s).getD .MEDIUM = m := by
  subst h; rw [requirementPriority_ofValue_self]; rfl

/-- The coercion result when no member has the string as its value. -/
theorem requirementPriority_coerce_default {s : String}
    (h : ∀ m : RequirementPriority, m.value ≠ s) :
    (RequirementPriority.ofValue s).getD .MEDIUM = .MEDIUM := by
  cases heq : RequirementPriority.ofValue s with
  | none => rfl
  | some m => exact absurd (requirementPriority_ofValue_sound heq) (h m)

/-- C3: constructing a `Thought`, `Question`, or `Requirement` with a
string `s` for an enum-typed field (`Thought.type`, `Question.type`,
`Question.category`, `Requirement.type`, `Requirement.priority`), or
calling `Requirement.set_priority(s)`, is total (the embedding functions
return a node for every string): if `s` equals some member's value that
member is stored, and otherwise the documented default member
(`consideration`, `open_ended`, `general`, `functional`, `medium`
respectively) is stored. -/
theorem string_enum_fields_never_raise (s : String) (c : String) (o : Int)
    (su : Option (List Thought)) (rf tg : Option (List String))
    (txt : String) (qty : StrOr QuestionType) (qcat : StrOr QuestionCategory)
    (fu : Option (List Question)) (cx : String) (imp : Int)
    (qtg : Option (List String)) (de ra : String)
    (rty : StrOr RequirementType) (rpr : StrOr RequirementPriority)
    (ac rtg : Option (List String)) (req : Requirement) :
    ((∀ m : ThoughtType, m.value = s →
        (Thought.init c (.str s) o su rf tg).type = m)
     ∧ ((∀ m : ThoughtType, m.value ≠ s) →
        (Thought.init c (.str s) o su rf tg).type = .CONSIDERATION))
    ∧ ((∀ m : QuestionType, m.value = s →
          (Question.init txt (.str s) qcat fu cx imp qtg).type = m)
       ∧ ((∀ m : QuestionType, m.value ≠ s) →
          (Question.init txt (.str s) qcat fu cx imp qtg).type = .OPEN_ENDED))
    ∧ ((∀ m : QuestionCategory, m.value = s →
          (Question.init txt qty (.str s) fu cx imp qtg).category = m)
       ∧ ((∀ m : QuestionCategory, m.value ≠ s) →
          (Question.init txt qty (.str s) fu cx imp qtg).category = .GENERAL))
    ∧ ((∀ m : RequirementType, m.value = s →
          (Requirement.init de (.str s) rpr ra ac rtg).type = m)
       ∧ ((∀ m : RequirementType, m.value ≠ s) →
          (Requirement.init de (.str s) rpr ra ac rtg).type = .FUNCTIONAL))
    ∧ ((∀ m : RequirementPriority, m.value = s →
          (Requirement.init de rty (.str s) ra ac rtg).priority = m)
       ∧ ((∀ m : RequirementPriority, m.value ≠ s) →
          (Requirement.init de rty (.str s) ra ac rtg).priority = .MEDIUM))
    ∧ ((∀ m : RequirementPriority, m.value = s →
          (req.set_priority (.str s)).priority = m)
       ∧ ((∀ m : RequirementPriority, m.value ≠ s) →
          (req.set_priority (.str s)).priority = .MEDIUM)) := by
  simp only [Thought.init, Thought.type, Question.init, Question.type,
             Question.category, Requirement.init, Requirement.set_priority]
  exact ⟨⟨fun m h => thoughtType_coerce_exact m h,
          fun h => thoughtType_coerce_default h⟩,
         ⟨fun m h => questionType_coerce_exact m h,
          fun h => questionType_coerce_default h⟩,
         ⟨fun m h => questionCategory_coerce_exact m h,
          fun h => questionCategory_coerce_default h⟩,
         ⟨fun m h => requirementType_coerce_exact m h,
          fun h => requirementType_coerce_default h⟩,
         ⟨fun m h => requirementPriority_coerce_exact m h,
          fun h => requirementPriority_coerce_default h⟩,
         ⟨fun m h => requirementPriority_coerce_exact m h,
          fun h => requirementPriority_coerce_default h⟩⟩

/-- Witness for C3 at concrete strings: `"hypothesis"` maps to the
`HYPOTHESIS` member and the unrecognized string `"bogus"` maps to the
default `CONSIDERATION`. -/
theorem string_enum_fields_never_raise_witness :
    (Thought.init "x" (.str "hypothesis") 0 none none none).type = .HYPOTHESIS
    ∧ (Thought.init "x" (.str "bogus") 0 none none none).type = .CONSIDERATION := by
  constructor
  · exact (string_enum_fields_never_raise "hypothesis" "x" 0 none none none
      "t" (.enum .OPEN_ENDED) (.enum .GENERAL) none "" 3 none "d" ""
      (.enum .FUNCTIONAL) (.enum .MEDIUM) none none
      (Requirement.init "d" (.enum .FUNCTIONAL) (.enum .MEDIUM) "" none none)).1.1
      .HYPOTHESIS rfl
  · exact (string_enum_fields_never_raise "bogus" "x" 0 none none none
      "t" (.enum .OPEN_ENDED) (.enum .GENERAL) none "" 3 none "d" ""
      (.enum .FUNCTIONAL) (.enum .MEDIUM) none none
      (Requirement.init "d" (.enum .FUNCTIONAL) (.enum .MEDIUM) "" none none)).1.2
      (by intro m; cases m <;> simp [ThoughtType.value])

/-- C4 counterexample: the claim that `to_dict` includes all list fields
unconditionally except the named nested/narrative ones fails on the code:
a `Thought` with empty `references` omits the `references` key entirely,
and a `Department` with no roles still carries a `roles` key (as `[]`)
even though the claim names `roles` as present only when non-empty. -/
theorem to_dict_unconditional_fields_counterexample :
    ¬ ("references" ∈ dictKeys (Thought.to_dict (.mk "x" .CONSIDERATION 0 [] [] [])))
    ∧ ("roles" ∈ dictKeys (Department.to_dict
        { name := "d", mission := "", functions := [], expertise_areas := [],
          description := "", roles := [] }))
    ∧ ({ name := "d", mission := "", functions := [], expertise_areas := [],
         description := "", roles := [] } : Department).roles = [] := by
  refine ⟨?_, ?_, rfl⟩
  · simp [Thought.to_dict, dictKeys]
  · simp [Department.to_dict, dictKeys]

/-- C4 amended: `to_dict` includes the scalar and list fields
unconditionally except that `references` and `sub_thoughts` on Thought,
`context` and `follow_ups` on Question, and `rationale` and
`acceptance_criteria` on Requirement are present exactly when non-empty;
`Department.to_dict` has all six keys unconditionally (`roles` appears as
an empty list when the department has no roles); and every enum-typed
field is stored as its string value. -/
theorem to_dict_key_presence (t : Thought) (q : Question) (r : Requirement)
    (d : Department) :
    ("content" ∈ dictKeys t.to_dict ∧ "type" ∈ dictKeys t.to_dict
     ∧ "order" ∈ dictKeys t.to_dict ∧ "tags" ∈ dictKeys t.to_dict
     ∧ ("references" ∈ dictKeys t.to_dict ↔ t.references ≠ [])
     ∧ ("sub_thoughts" ∈ dictKeys t.to_dict ↔ t.sub_thoughts ≠ [])
     ∧ List.lookup "type" t.to_dict = some (.str t.type.value))
    ∧ ("text" ∈ dictKeys q.to_dict ∧ "type" ∈ dictKeys q.to_dict
       ∧ "category" ∈ dictKeys q.to_dict ∧ "importance" ∈ dictKeys q.to_dict
       ∧ "tags" ∈ dictKeys q.to_dict
       ∧ ("context" ∈ dictKeys q.to_dict ↔ q.context ≠ "")
       ∧ ("follow_ups" ∈ dictKeys q.to_dict ↔ q.follow_ups ≠ [])
       ∧ List.lookup "type" q.to_dict = some (.str q.type.value)
       ∧ List.lookup "category" q.to_dict = some (.str q.category.value))
    ∧ ("description" ∈ dictKeys r.to_dict ∧ "type" ∈ dictKeys r.to_dict
       ∧ "priority" ∈ dictKeys r.to_dict ∧ "tags" ∈ dictKeys r.to_dict
       ∧ ("rationale" ∈ dictKeys r.to_dict ↔ r.rationale ≠ "")
       ∧ ("acceptance_criteria" ∈ dictKeys r.to_dict
            ↔ r.acceptance_criteria ≠ [])
       ∧ List.lookup "type" r.to_dict = some (.str r.type.value)
       ∧ List.lookup "priority" r.to_dict = some (.str r.priority.value))
    ∧ dictKeys d.to_dict
        = ["name", "mission", "functions", "expertise_areas", "description",
           "roles"] := by
  cases t with
  | mk tc ty tod tsu trf ttg =>
  cases q with
  | mk qt qty qc qfu qcx qi qtg =>
  obtain ⟨rd, rty, rpr, rra, rac, rtg⟩ := r
  obtain ⟨dn, dm, df, de2, dd, dr⟩ := d
  refine ⟨⟨?_, ?_, ?_, ?_, ?_, ?_, ?_⟩, ⟨?_, ?_, ?_, ?_, ?_, ?_, ?_, ?_, ?_⟩,
          ⟨?_, ?_, ?_, ?_, ?_, ?_, ?_, ?_⟩, ?_⟩
  · simp [Thought.to_dict, dictKeys]
  · simp [Thought.to_dict, dictKeys]
  · simp [Thought.to_dict, dictKeys]
  · simp [Thought.to_dict, dictKeys]
  · cases trf <;> cases tsu <;> simp [Thought.to_dict, dictKeys]
  · cases trf <;> cases tsu <;> simp [Thought.to_dict, dictKeys]
  · cases trf <;> cases tsu <;> simp [Thought.to_dict, List.lookup]
  · simp [Question.to_dict, dictKeys]
  · simp [Question.to_dict, dictKeys]
  · simp [Question.to_dict, dictKeys]
  · simp [Question.to_dict, dictKeys]
  · simp [Question.to_dict, dictKeys]
  · rcases eq_or_ne qcx "" with h | h <;> cases qfu <;>
      simp [Question.to_dict, dictKeys, h]
  · rcases eq_or_ne qcx "" with h | h <;> cases qfu <;>
      simp [Question.to_dict, dictKeys, h]
  · rcases eq_or_ne qcx "" with h | h <;> cases qfu <;>
      simp [Question.to_dict, List.lookup, h]
  · rcases eq_or_ne qcx "" with h | h <;> cases qfu <;>
      simp [Question.to_dict, List.lookup, h]
  · simp [Requirement.to_dict, dictKeys]
  · simp [Requirement.to_dict, dictKeys]
  · simp [Requirement.to_dict, dictKeys]
  · simp [Requirement.to_dict, dictKeys]
  · rcases eq_or_ne rra "" with h | h <;> cases rac <;>
      simp [Requirement.to_dict, dictKeys, h]
  · rcases eq_or_ne rra "" with h | h <;> cases rac <;>
      simp [Requirement.to_dict, dictKeys, h]
  · rcases eq_or_ne rra "" with h | h <;> cases rac <;>
      simp [Requirement.to_dict, List.lookup, h]
  · rcases eq_or_ne rra "" with h | h <;> cases rac <;>
      simp [Requirement.to_dict, List.lookup, h]
  · simp [Department.to_dict, dictKeys]

/-- Looking up the key just written by `dictInsert` yields the new value. -/
theorem lookup_dictInsert_self (d : Dict) (k : String) (v : Value) :
    List.lookup k (dictInsert d k v) = some v := by
  unfold dictInsert
  by_cases hany : d.any (fun p => p.1 == k) = true
  · rw [if_pos hany]
    induction d with
    | nil => simp at hany
    | cons p r ih =>
      obtain ⟨a, b⟩ := p
      by_cases hak : a = k
      · subst hak
        simp
      · have hany2 : r.any (fun p => p.1 == k) = true := by
          simpa [hak] using hany
        have hka : (k == a) = false := by
          simpa using fun h => hak h.symm
        simp only [List.map_cons]
        rw [if_neg (by simpa using hak)]
        rw [List.lookup_cons, hka]
        exact ih hany2
  · rw [if_neg hany]
    have hnone : List.lookup k d = none := by
      rw [List.lookup_eq_none_iff]
      intro p hp
      have hpk : ¬(p.1 == k) = true := fun hh =>
        hany (List.any_eq_true.mpr ⟨p, hp, hh⟩)
      have hne : p.1 ≠ k := by simpa using hpk
      simpa [bne_iff_ne] using Ne.symm hne
    rw [List.lookup_append, hnone]
    simp

/-- `dictInsert` leaves lookups of other keys unchanged. -/
theorem lookup_dictInsert_ne (d : Dict) (k k' : String) (v : Value)
    (h : k' ≠ k) :
    List.lookup k' (dictInsert d k v) = List.lookup k' d := by
  unfold dictInsert
  by_cases hany : d.any (fun p => p.1 == k) = true
  · rw [if_pos hany]
    clear hany
    induction d with
    | nil => simp
    | cons p r ih =>
      obtain ⟨a, b⟩ := p
      by_cases hak : a = k
      · subst hak
        have hk2 : (k' == a) = false := by simpa using h
        simp only [List.map_cons]
        rw [if_pos (by simp)]
        rw [List.lookup_cons, List.lookup_cons, hk2]
        exact ih
      · simp only [List.map_cons]
        rw [if_neg (by simpa using hak)]
        rw [List.lookup_cons, List.lookup_cons]
        cases hka : (k' == a) with
        | true => rfl
        | false => exact ih
  · rw [if_neg hany]
    clear hany
    rw [List.lookup_append]
    have hone : List.lookup k' [(k, v)] = none := by
      rw [List.lookup_cons]
      rw [show (k' == k) = false by simpa using h]
      rfl
    rw [hone]
    simp

/-- Keys absent from the written entries keep their original lookup. -/
theorem lookup_dictInsertMany_not_mem (entries : Dict) :
    ∀ (d : Dict) (k : String), k ∉ dictKeys entries →
      List.lookup k (dictInsertMany d entries) = List.lookup k d := by
  induction entries with
  | nil => intro d k _; rfl
  | cons p r ih =>
    intro d k hk
    obtain ⟨k0, v0⟩ := p
    have hne : k ≠ k0 := by
      intro h
      exact hk (by simp [dictKeys, h])
    have hr : k ∉ dictKeys r := by
      intro h
      exact hk (by simp [dictKeys] at h ⊢; exact Or.inr h)
    show List.lookup k (dictInsertMany (dictInsert d k0 v0) r) = _
    rw [ih (dictInsert d k0 v0) k hr, lookup_dictInsert_ne d k0 k v0 hne]

/-- After writing entries with pairwise-distinct keys, every written
entry is found by lookup. -/
theorem lookup_dictInsertMany_mem (entries : Dict) :
    ∀ (d : Dict) (k : String) (v : Value),
      (dictKeys entries).Nodup → (k, v) ∈ entries →
      List.lookup k (dictInsertMany d entries) = some v := by
  induction entries with
  | nil => intro d k v _ hm; cases hm
  | cons p r ih =>
    intro d k v hnd hm
    obtain ⟨k0, v0⟩ := p
    have hnd' : (dictKeys r).Nodup ∧ k0 ∉ dictKeys r := by
      simp only [dictKeys, List.map_cons, List.nodup_cons] at hnd
      exact ⟨hnd.2, hnd.1⟩
    rcases List.mem_cons.mp hm with h | h
    · obtain ⟨h1, h2⟩ := Prod.mk.injEq .. ▸ h
      subst h1; subst h2
      show List.lookup k (dictInsertMany (dictInsert d k v) r) = some v
      rw [lookup_dictInsertMany_not_mem r (dictInsert d k v) k hnd'.2,
          lookup_dictInsert_self]
    · exact ih (dictInsert d k0 v0) k v hnd'.1 h

/-- C5: every `additional_info` entry of a `Context` appears at the top
level of `to_dict`'s output mapping, and — because the entries are
written after the six named fields — an `additional_info` key equal to a
named-field key (e.g. `"background"`) overwrites that named field's
value in the output. -/
theorem context_additional_info_merged_flat (c : Context)
    (h : (dictKeys c.additional_info).Nodup) (k : String) (v : Value)
    (hm : (k, v) ∈ c.additional_info) :
    List.lookup k c.to_dict = some v := by
  unfold Context.to_dict
  exact lookup_dictInsertMany_mem c.additional_info _ k v h hm

/-- Witness for C5: an `additional_info` entry keyed `"background"`
overrides the named `background` field (originally `"orig"`) in the
dictionary output. -/
theorem context_additional_info_merged_flat_witness :
    List.lookup "background"
      (((Context.init "orig" "" none none none none).add_additional_info
          "background" (.str "override")).to_dict)
      = some (.str "override") := by
  exact context_additional_info_merged_flat
    ((Context.init "orig" "" none none none none).add_additional_info
      "background" (.str "override"))
    (by simp [Context.init, Context.add_additional_info, dictInsert, dictKeys])
    "background" (.str "override")
    (by simp [Context.init, Context.add_additional_info, dictInsert])

/-- All lines of `l`, each preceded by one newline (the tail of a joined
block whose head line is written separately). -/
def joinLines (l : List String) : String :=
  (l.map (fun x => "\n" ++ x)).foldr (fun a b => a ++ b) ""

/-- `joinLines` on `[]`. -/
theorem joinLines_nil : joinLines [] = "" := rfl

/-- `joinLines` on a cons. -/
theorem joinLines_cons (x : String) (l : List String) :
    joinLines (x :: l) = "\n" ++ x ++ joinLines l := by
  simp [joinLines, String.append_assoc]

/-- `joinLines` is a homomorphism for list append. -/
theorem joinLines_append (l1 l2 : List String) :
    joinLines (l1 ++ l2) = joinLines l1 ++ joinLines l2 := by
  induction l1 with
  | nil => simp [joinLines_nil]
  | cons x r ih =>
    rw [List.cons_append, joinLines_cons, joinLines_cons, ih]
    simp [String.append_assoc]

/-- A newline-joined block is its head line followed by `joinLines` of
the rest. -/
theorem intercalate_eq_head_joinLines (a : String) (l : List String) :
    String.intercalate "\n" (a :: l) = a ++ joinLines l := by
  induction l generalizing a with
  | nil => rw [intercalate_single, joinLines_nil, String.append_empty]
  | cons b r ih =>
    rw [intercalate_cons_ne _ _ _ (by simp), ih, joinLines_cons]
    simp [String.append_assoc]

/-- C6 counterexample: the claim that every non-empty list-valued field
renders as a blank line, a label line, then `- item` lines fails on the
code: `Requirement.acceptance_criteria` renders its label with no blank
line before it, and `Thought.references` renders as a single
comma-joined line with no `- item` lines at all. -/
theorem list_fields_render_counterexample :
    ((Requirement.init "d" (.enum .FUNCTIONAL) (.enum .MEDIUM) ""
        (some ["c"]) none).to_prompt_text
      = "Requirement (medium): d" ++ "\n" ++ "Acceptance Criteria:"
        ++ "\n" ++ "- c")
    ∧ ((Requirement.init "d" (.enum .FUNCTIONAL) (.enum .MEDIUM) ""
        (some ["c"]) none).to_prompt_text
      ≠ "Requirement (medium): d" ++ "\n" ++ "" ++ "\n"
        ++ "Acceptance Criteria:" ++ "\n" ++ "- c")
    ∧ ((Thought.init "x" (.enum .CONSIDERATION) 0 none (some ["a", "b"])
          none).to_prompt_text 0
        = "Thought: x" ++ "\n" ++ "References: a, b")
    ∧ ((Thought.init "x" (.enum .CONSIDERATION) 0 none (some ["a", "b"])
          none).to_prompt_text 0
        ≠ "Thought: x" ++ "\n" ++ "" ++ "\n" ++ "References:" ++ "\n"
          ++ "- a" ++ "\n" ++ "- b") := by
  refine ⟨by decide, by decide, by decide, by decide⟩

/-- C6 amended: a non-empty `Role.responsibilities` or `Role.focus_areas`
renders as a blank line, then a label line, then one `- item` line per
element preserving order; `Requirement.acceptance_criteria` renders its
label line with no preceding blank line; and `Thought.references`
renders as one comma-joined `References:` line instead of `- item`
lines. -/
theorem list_fields_render_amended :
    (∀ r : Role, r.to_prompt_text = String.intercalate "\n"
        (["Role: " ++ r.name]
         ++ (if r.expertise = "" then [] else ["Expertise: " ++ r.expertise])
         ++ (if r.description = "" then [] else ["", r.description])
         ++ (if r.responsibilities = [] then []
             else ["", "Responsibilities:"]
                  ++ r.responsibilities.map (fun x => "- " ++ x))
         ++ (if r.focus_areas = [] then []
             else ["", "Focus Areas:"]
                  ++ r.focus_areas.map (fun x => "- " ++ x))))
    ∧ (∀ q : Requirement, q.to_prompt_text = String.intercalate "\n"
        (["Requirement (" ++ q.priority.value ++ "): " ++ q.description]
         ++ (if q.rationale = "" then [] else ["Rationale: " ++ q.rationale])
         ++ (if q.acceptance_criteria = [] then []
             else ["Acceptance Criteria:"]
                  ++ q.acceptance_criteria.map (fun c => "- " ++ c))))
    ∧ (∀ (t : Thought) (l : Nat), t.to_prompt_text l = String.intercalate "\n"
        ([if t.order > 0 then
            indentOf l ++ "Thought " ++ toString t.order ++ ": " ++ t.content
          else indentOf l ++ "Thought: " ++ t.content]
         ++ (if t.references = [] then []
             else [indentOf l ++ "References: "
                   ++ String.intercalate ", " t.references])
         ++ Thought.listTexts t.sub_thoughts (l + 1))) := by
  refine ⟨fun r => ?_, fun q => ?_, fun t l => ?_⟩
  · simp only [Role.to_prompt_text, ite_acc]
    simp only [List.append_assoc, List.singleton_append, List.cons_append]
    rw [intercalate_eq_head_joinLines, intercalate_eq_head_joinLines]
    simp [joinLines_append, joinLines_cons, joinLines_nil,
          apply_ite joinLines, String.append_assoc]
    simp [← String.append_assoc]
  · simp only [Requirement.to_prompt_text, ite_acc]
    simp only [List.append_assoc, List.singleton_append, List.cons_append]
    rw [intercalate_eq_head_joinLines, intercalate_eq_head_joinLines]
    simp [joinLines_append, joinLines_cons, joinLines_nil,
          apply_ite joinLines, String.append_assoc]
  · cases t with
    | mk tc ty tod tsu trf ttg =>
      simp only [Thought.to_prompt_text, ite_acc, Thought.order,
                 Thought.content, Thought.references, Thought.sub_thoughts]
      simp only [List.append_assoc, List.singleton_append, List.cons_append]
      rw [intercalate_eq_head_joinLines, intercalate_eq_head_joinLines]
      simp [joinLines_append, joinLines_cons, joinLines_nil,
            apply_ite joinLines, String.append_assoc]

/-- C7 counterexample: the omission law fails for `Context`: a `Context`
with every field empty renders the empty string — zero characters, hence
no mandatory header line at all — rather than a block consisting of a
single mandatory header line. -/
theorem empty_node_header_counterexample :
    (Context.init "" "" none none none none).to_prompt_text = ""
    ∧ ((Context.init "" "" none none none none).to_prompt_text).length = 0 := by
  exact ⟨by decide, by decide⟩

/-- C7 amended: a node constructed with all optional fields empty renders
via `to_prompt_text` only its single mandatory header line and via
`to_dict` only its mandatory keys (always-present list fields appearing
as empty lists) for Thought, Question, Requirement, Branch, Role, and
Department; a `Context` with all fields empty instead renders the empty
string (it has no header line) while its `to_dict` still carries the six
named keys. -/
theorem empty_node_renders_header_only (content text de bn rn dn : String) :
    ((Thought.init content (.enum .CONSIDERATION) 0 none none none).to_prompt_text 0
        = "Thought: " ++ content
     ∧ (Thought.init content (.enum .CONSIDERATION) 0 none none none).to_dict
        = [("content", .str content), ("type", .str "consideration"),
           ("order", .int 0), ("tags", .list [])])
    ∧ ((Question.init text (.enum .OPEN_ENDED) (.enum .GENERAL) none "" 3
          none).to_prompt_text 0
        = "Question: " ++ text
       ∧ (Question.init text (.enum .OPEN_ENDED) (.enum .GENERAL) none "" 3
            none).to_dict
        = [("text", .str text), ("type", .str "open_ended"),
           ("category", .str "general"), ("importance", .int 3),
           ("tags", .list [])])
    ∧ ((Requirement.init de (.enum .FUNCTIONAL) (.enum .MEDIUM) "" none
          none).to_prompt_text
        = "Requirement (medium): " ++ de
       ∧ (Requirement.init de (.enum .FUNCTIONAL) (.enum .MEDIUM) "" none
            none).to_dict
        = [("description", .str de), ("type", .str "functional"),
           ("priority", .str "medium"), ("tags", .list [])])
    ∧ ((Context.init "" "" none none none none).to_prompt_text = ""
       ∧ (Context.init "" "" none none none none).to_dict
        = [("background", .str ""), ("domain", .str ""),
           ("constraints", .list []), ("assumptions", .list []),
           ("resources", .list []), ("stakeholders", .list [])])
    ∧ ((Branch.init bn "" none "" 3 none).to_prompt_text
        = "Branch " ++ bn ++ ":"
       ∧ (Branch.init bn "" none "" 3 none).to_dict
        = [("name", .str bn), ("description", .str ""), ("owner", .str ""),
           ("priority", .int 3), ("tags", .list [])])
    ∧ ((Role.init rn none none none none).to_prompt_text = "Role: " ++ rn
       ∧ (Role.init rn none none none none).to_dict
        = [("name", .str rn), ("expertise", .str ""),
           ("responsibilities", .list []), ("focus_areas", .list []),
           ("description", .str "")])
    ∧ ((Department.init dn none none none none).to_prompt_text
        = "Department: " ++ dn
       ∧ (Department.init dn none none none none).to_dict
        = [("name", .str dn), ("mission", .str ""), ("functions", .list []),
           ("expertise_areas", .list []), ("description", .str ""),
           ("roles", .list [])]) := by
  refine ⟨⟨?_, ?_⟩, ⟨?_, ?_⟩, ⟨?_, ?_⟩, ⟨?_, ?_⟩, ⟨?_, ?_⟩, ⟨?_, ?_⟩, ⟨?_, ?_⟩⟩
  · simp [Thought.init, Thought.to_prompt_text, Thought.listTexts, indentOf,
          intercalate_single]
  · simp [Thought.init, Thought.to_dict, ThoughtType.value]
  · simp [Question.init, Question.to_prompt_text, Question.listTexts, indentOf,
          intercalate_single]
  · simp [Question.init, Question.to_dict, QuestionType.value,
          QuestionCategory.value]
  · simp [Requirement.init, Requirement.to_prompt_text,
          RequirementPriority.value, intercalate_single]
  · simp [Requirement.init, Requirement.to_dict, RequirementType.value,
          RequirementPriority.value]
  · simp [Context.init, Context.to_prompt_text, intercalate_nil]
  · simp [Context.init, Context.to_dict, dictInsertMany]
  · simp [Branch.init, Branch.to_prompt_text, intercalate_single]
  · simp [Branch.init, Branch.to_dict]
  · simp [Role.init, Role.to_prompt_text, intercalate_single]
  · simp [Role.init, Role.to_dict]
  · simp [Department.init, Department.to_prompt_text, intercalate_single]
  · simp [Department.init, Department.to_dict]

/-- Strings round-trip through `Value.str` wrapping. -/
theorem strsOf_map_str : ∀ l : List String, strsOf (l.map .str) = l := by
  intro l
  induction l with
  | nil => rfl
  | cons a r ih => simp [strsOf, ih]

/-- Reconstructing every nested dictionary of `listDicts` recovers the
original sub-thought list, given the round-trip for each element. -/
theorem listFromValues_listDicts :
    ∀ subs : List Thought,
      (∀ s ∈ subs, Thought.fromDict s.to_dict = s) →
      Thought.listFromValues (Thought.listDicts subs) = subs := by
  intro subs
  induction subs with
  | nil => intro _; simp [Thought.listDicts, Thought.listFromValues]
  | cons b bs ih =>
    intro h
    rw [Thought.listDicts, Thought.listFromValues,
        ih (fun s hs => h s (List.mem_cons_of_mem _ hs))]
    rw [show Thought.fromEntries b.to_dict (.mk "" .CONSIDERATION 0 [] [] [])
          = Thought.fromDict b.to_dict from rfl]
    rw [h b (List.mem_cons_self _ _)]

/-- The recursive `Thought` round-trip, by strong induction on size. -/
theorem thought_fromDict_aux :
    ∀ n : Nat, ∀ t : Thought, sizeOf t < n →
      Thought.fromDict t.to_dict = t := by
  intro n
  induction n with
  | zero => intro t h; exact absurd h (Nat.not_lt_zero _)
  | succ n ih =>
    intro t ht
    cases t with
    | mk c ty o subs refs tags =>
      have hsub : ∀ s ∈ subs, Thought.fromDict s.to_dict = s := by
        intro s hs
        apply ih
        have h1 : sizeOf s < sizeOf subs := List.sizeOf_lt_of_mem hs
        have h2 : sizeOf subs < sizeOf (Thought.mk c ty o subs refs tags) := by
          simp only [Thought.mk.sizeOf_spec]
          omega
        omega
      have hlist := listFromValues_listDicts subs hsub
      have hty : (ThoughtType.ofValue ty.value).getD .CONSIDERATION = ty :=
        thoughtType_coerce_exact ty rfl
      rcases refs with _ | ⟨a, as⟩ <;> rcases subs with _ | ⟨b, bs⟩ <;>
        simp [Thought.to_dict, Thought.fromDict, Thought.fromEntries, strsOf,
              strsOf_map_str, hty, hlist]

/-- Writing entries with fresh, pairwise-distinct keys is plain list
append. -/
theorem dictInsertMany_append :
    ∀ (entries d : Dict), (dictKeys entries).Nodup →
      (∀ k ∈ dictKeys entries, k ∉ dictKeys d) →
      dictInsertMany d entries = d ++ entries := by
  intro entries
  induction entries with
  | nil => intro d _ _; simp [dictInsertMany]
  | cons p r ih =>
    intro d hnd hfresh
    obtain ⟨k0, v0⟩ := p
    have hk0 : k0 ∉ dictKeys d := hfresh k0 (by simp [dictKeys])
    have hins : dictInsert d k0 v0 = d ++ [(k0, v0)] := by
      unfold dictInsert
      rw [if_neg]
      intro hany
      rcases List.any_eq_true.mp hany with ⟨q, hq, hqk⟩
      exact hk0 (by
        have : q.1 = k0 := by simpa using hqk
        exact this ▸ List.mem_map_of_mem Prod.fst hq)
    have hnd2 : (dictKeys r).Nodup := by
      simp only [dictKeys, List.map_cons, List.nodup_cons] at hnd
      exact hnd.2
    have hk0r : k0 ∉ dictKeys r := by
      simp only [dictKeys, List.map_cons, List.nodup_cons] at hnd
      exact hnd.1
    have hfresh2 : ∀ k ∈ dictKeys r, k ∉ dictKeys (d ++ [(k0, v0)]) := by
      intro k hk
      have hkc : k ∈ dictKeys ((k0, v0) :: r) := List.mem_cons_of_mem _ hk
      intro hmem
      rw [show dictKeys (d ++ [(k0, v0)]) = dictKeys d ++ [k0] from by
            simp [dictKeys]] at hmem
      rcases List.mem_append.mp hmem with hm | hm
      · exact hfresh k hkc hm
      · have hkk : k = k0 := by simpa using hm
        exact hk0r (hkk ▸ hk)
    show dictInsertMany (dictInsert d k0 v0) r = _
    rw [hins, ih (d ++ [(k0, v0)]) hnd2 hfresh2, List.append_assoc,
        List.singleton_append]

/-- C8 counterexample: the round-trip fails for a `Context` whose
`additional_info` holds a key equal to a named field: with background
`"Y"` and an `additional_info` entry `"background" : "X"`, the exported
dictionary carries only `"X"`, so reconstruction yields background `"X"`
and a different node. -/
theorem to_dict_roundtrip_counterexample :
    (Context.fromDict (((Context.init "Y" "" none none none
        none).add_additional_info "background" (.str "X")).to_dict)).background
      = "X"
    ∧ (((Context.init "Y" "" none none none none).add_additional_info
        "background" (.str "X"))).background = "Y"
    ∧ Context.fromDict (((Context.init "Y" "" none none none
        none).add_additional_info "background" (.str "X")).to_dict)
      ≠ ((Context.init "Y" "" none none none none).add_additional_info
          "background" (.str "X")) := by
  refine ⟨by decide, by decide, fun h => ?_⟩
  exact absurd (congrArg Context.background h) (by decide)

/-- C8 amended: reconstructing a `Thought` from its `to_dict` output
recovers the node exactly, including the count and order of nested
sub-thoughts; reconstructing a `Context` recovers the node exactly
provided its `additional_info` keys are pairwise distinct and disjoint
from the six named field keys (an `additional_info` key equal to a named
key makes the export lossy, as the counterexample shows). -/
theorem to_dict_roundtrip_amended :
    (∀ t : Thought, Thought.fromDict t.to_dict = t)
    ∧ (∀ c : Context, (dictKeys c.additional_info).Nodup →
        (∀ k ∈ dictKeys c.additional_info, k ∉ contextNamedKeys) →
        Context.fromDict c.to_dict = c) := by
  constructor
  · intro t
    exact thought_fromDict_aux (sizeOf t + 1) t (Nat.lt_succ_self _)
  · intro c h1 h2
    obtain ⟨bg, dom, cs, asps, res, st, add⟩ := c
    have hkeys :
        dictKeys [(("background" : String), Value.str bg), ("domain", .str dom),
          ("constraints", .list (cs.map .str)),
          ("assumptions", .list (asps.map .str)),
          ("resources", .list (res.map .str)),
          ("stakeholders", .list (st.map .str))] = contextNamedKeys := by
      simp [dictKeys, contextNamedKeys]
    unfold Context.to_dict
    rw [dictInsertMany_append add _ h1 (fun k hk => by
      rw [hkeys]
      exact h2 k hk)]
    unfold Context.fromDict getStr getStrs
    simp only [List.cons_append, List.nil_append]
    simp [List.lookup, List.filter, contextNamedKeys, strsOf_map_str]
    intro a b hab
    have ha := h2 a (List.mem_map_of_mem Prod.fst hab)
    simpa [contextNamedKeys] using ha

/-- Witness for C8's amended Context part at a concrete context with one
non-colliding `additional_info` entry. -/
theorem to_dict_roundtrip_amended_witness :
    Context.fromDict (((Context.init "bg" "dom" (some ["c1"]) none none
        none).add_additional_info "extra" (.str "v")).to_dict)
      = ((Context.init "bg" "dom" (some ["c1"]) none none
          none).add_additional_info "extra" (.str "v")) := by
  exact to_dict_roundtrip_amended.2
    (((Context.init "bg" "dom" (some ["c1"]) none none
        none).add_additional_info "extra" (.str "v")))
    (by simp [Context.init, Context.add_additional_info, dictInsert, dictKeys])
    (by
      intro k hk
      simp [Context.init, Context.add_additional_info, dictInsert,
            dictKeys] at hk
      simp [hk, contextNamedKeys])

mutual

/-- The individual lines of a rendered `Thought` block at a given indent
level: header, optional references line, then every line of every
sub-thought's block one level deeper. -/
def Thought.promptLines : Thought → Nat → List String
  | .mk c _ o subs refs _, l =>
    (if o > 0 then indentOf l ++ "Thought " ++ toString o ++ ": " ++ c
     else indentOf l ++ "Thought: " ++ c)
    :: ((if refs.isEmpty then []
         else [indentOf l ++ "References: " ++ String.intercalate ", " refs])
        ++ Thought.listLines subs (l + 1))

/-- The lines of a list of thought blocks at level `l`. -/
def Thought.listLines : List Thought → Nat → List String
  | [], _ => []
  | t :: r, l => t.promptLines l ++ Thought.listLines r l

end

/-- The rendered text of a `Thought` is the newline-join of its
`promptLines`, by strong induction on size. -/
theorem thought_text_lines_aux :
    ∀ n : Nat, ∀ t : Thought, sizeOf t < n →
      ∀ l : Nat, t.to_prompt_text l = String.intercalate "\n" (t.promptLines l) := by
  intro n
  induction n with
  | zero => intro t h; exact absurd h (Nat.not_lt_zero _)
  | succ n ih =>
    intro t ht l
    cases t with
    | mk c ty o subs refs tags =>
      have hsub : ∀ s ∈ subs, ∀ l2 : Nat,
          s.to_prompt_text l2 = String.intercalate "\n" (s.promptLines l2) := by
        intro s hs
        apply ih
        have h1 : sizeOf s < sizeOf subs := List.sizeOf_lt_of_mem hs
        have h2 : sizeOf subs < sizeOf (Thought.mk c ty o subs refs tags) := by
          simp only [Thought.mk.sizeOf_spec]
          omega
        omega
      have hlist : ∀ subs2 : List Thought,
          (∀ s ∈ subs2, ∀ l2 : Nat,
            s.to_prompt_text l2 = String.intercalate "\n" (s.promptLines l2)) →
          joinLines (Thought.listTexts subs2 (l + 1))
            = joinLines (Thought.listLines subs2 (l + 1)) := by
        intro subs2
        induction subs2 with
        | nil => intro _; simp [Thought.listTexts, Thought.listLines]
        | cons s r ihs =>
          intro h
          rw [Thought.listTexts, Thought.listLines, joinLines_cons,
              joinLines_append,
              ihs (fun x hx => h x (List.mem_cons_of_mem _ hx)),
              h s (List.mem_cons_self _ _) (l + 1)]
          cases hpl : s.promptLines (l + 1) with
          | nil =>
            cases s with
            | mk c2 ty2 o2 su2 rf2 tg2 => simp [Thought.promptLines] at hpl
          | cons a rest =>
            rw [intercalate_eq_head_joinLines, joinLines_cons]
            simp [String.append_assoc]
      simp only [Thought.to_prompt_text, ite_acc]
      simp only [List.append_assoc, List.singleton_append, List.cons_append]
      rw [intercalate_eq_head_joinLines]
      rw [Thought.promptLines, intercalate_eq_head_joinLines]
      rw [joinLines_append, joinLines_append, hlist subs hsub]
      simp [joinLines_nil, joinLines_append]

/-- Rendering one level deeper prefixes two spaces to every line, by
strong induction on size. -/
theorem thought_lines_shift_aux :
    ∀ n : Nat, ∀ t : Thought, sizeOf t < n →
      ∀ l : Nat, t.promptLines (l + 1)
        = (t.promptLines l).map (fun s => "  " ++ s) := by
  intro n
  induction n with
  | zero => intro t h; exact absurd h (Nat.not_lt_zero _)
  | succ n ih =>
    intro t ht l
    cases t with
    | mk c ty o subs refs tags =>
      have hsub : ∀ s ∈ subs, ∀ l2 : Nat,
          s.promptLines (l2 + 1) = (s.promptLines l2).map (fun x => "  " ++ x) := by
        intro s hs
        apply ih
        have h1 : sizeOf s < sizeOf subs := List.sizeOf_lt_of_mem hs
        have h2 : sizeOf subs < sizeOf (Thought.mk c ty o subs refs tags) := by
          simp only [Thought.mk.sizeOf_spec]
          omega
        omega
      have hlist : ∀ subs2 : List Thought,
          (∀ s ∈ subs2, ∀ l2 : Nat,
            s.promptLines (l2 + 1) = (s.promptLines l2).map (fun x => "  " ++ x)) →
          Thought.listLines subs2 (l + 1 + 1)
            = (Thought.listLines subs2 (l + 1)).map (fun x => "  " ++ x) := by
        intro subs2
        induction subs2 with
        | nil => intro _; simp [Thought.listLines]
        | cons s r ihs =>
          intro h
          rw [Thought.listLines, Thought.listLines, List.map_append,
              ihs (fun x hx => h x (List.mem_cons_of_mem _ hx)),
              h s (List.mem_cons_self _ _) (l + 1)]
      have hind : indentOf (l + 1) = "  " ++ indentOf l := rfl
      rw [Thought.promptLines, Thought.promptLines, hlist subs hsub,
          List.map_cons, List.map_append]
      refine congrArg₂ List.cons ?_ (congrArg₂ (· ++ ·) ?_ rfl)
      · split <;> simp [hind, String.append_assoc]
      · split <;> simp [hind, String.append_assoc]

/-- C9: for every `Thought` rendered at indent level 0 the header line
carries no indentation, and each sub-thought's full multi-line block is
indented by exactly two more spaces than its parent at every nesting
level: rendering at level `l + 1` prefixes two spaces to every line of
the level-`l` block, recursively. -/
theorem thought_nested_indentation (t : Thought) (l : Nat) :
    t.to_prompt_text l = String.intercalate "\n" (t.promptLines l)
    ∧ t.promptLines (l + 1) = (t.promptLines l).map (fun s => "  " ++ s)
    ∧ (t.promptLines 0).head? = some
        (if t.order > 0 then "Thought " ++ toString t.order ++ ": " ++ t.content
         else "Thought: " ++ t.content) := by
  refine ⟨thought_text_lines_aux (sizeOf t + 1) t (Nat.lt_succ_self _) l,
          thought_lines_shift_aux (sizeOf t + 1) t (Nat.lt_succ_self _) l, ?_⟩
  cases t with
  | mk c ty o subs refs tags =>
    simp [Thought.promptLines, indentOf]

/-- C10: `add_role_to_department(r, n)` appends `r` to the roles of the
first department named `n`, leaving all other departments and all other
builder fields unchanged; when no department is named `n` it appends a
new `Department(name=n)` containing exactly `r` to the end of the list.
The returned builder is the (updated) receiver: every field other than
`departments` is the original one. -/
theorem add_role_to_department_spec :
    (∀ (b : PromptBuilder) (r : Role) (n : String),
        (b.add_role_to_department r n).departments
          = addRoleToDeptList b.departments r n
        ∧ (b.add_role_to_department r n).title = b.title
        ∧ (b.add_role_to_department r n).roles = b.roles
        ∧ (b.add_role_to_department r n).context = b.context
        ∧ (b.add_role_to_department r n).branches = b.branches
        ∧ (b.add_role_to_department r n).questions = b.questions
        ∧ (b.add_role_to_department r n).requirements = b.requirements
        ∧ (b.add_role_to_department r n).approach = b.approach
        ∧ (b.add_role_to_department r n).output_format = b.output_format)
    ∧ (∀ (pre post : List Department) (d : Department) (r : Role) (n : String),
        (∀ d2 ∈ pre, d2.name ≠ n) → d.name = n →
        addRoleToDeptList (pre ++ d :: post) r n
          = pre ++ (d.add_role r :: post))
    ∧ (∀ (ds : List Department) (r : Role) (n : String),
        (∀ d2 ∈ ds, d2.name ≠ n) →
        addRoleToDeptList ds r n
          = ds ++ [(Department.init n none none none none).add_role r]) := by
  refine ⟨fun b r n => ?_, fun pre post d r n hpre hd => ?_, fun ds r n h => ?_⟩
  · simp [PromptBuilder.add_role_to_department]
  · induction pre with
    | nil =>
      simp only [List.nil_append, addRoleToDeptList]
      rw [if_pos hd]
    | cons p rest ih =>
      have hp : p.name ≠ n := hpre p (List.mem_cons_self _ _)
      simp only [List.cons_append, addRoleToDeptList, List.append_eq]
      rw [if_neg hp, ih (fun d2 hd2 => hpre d2 (List.mem_cons_of_mem _ hd2))]
  · induction ds with
    | nil => rfl
    | cons p rest ih =>
      have hp : p.name ≠ n := h p (List.mem_cons_self _ _)
      simp only [List.cons_append, addRoleToDeptList, List.append_eq]
      rw [if_neg hp, ih (fun d2 hd2 => h d2 (List.mem_cons_of_mem _ hd2))]

/-- Witness for C10 at a concrete two-department builder: adding to the
existing department `"B"` appends the role to `"B"` only, and adding for
the unknown name `"C"` appends a fresh one-role department at the end. -/
theorem add_role_to_department_spec_witness :
    addRoleToDeptList
        [Department.init "A" none none none none,
         Department.init "B" none none none none]
        (Role.init "R" none none none none) "B"
      = [Department.init "A" none none none none,
         (Department.init "B" none none none none).add_role
           (Role.init "R" none none none none)]
    ∧ addRoleToDeptList [Department.init "A" none none none none]
        (Role.init "R" none none none none) "C"
      = [Department.init "A" none none none none,
         (Department.init "C" none none none none).add_role
           (Role.init "R" none none none none)] := by
  constructor
  · exact add_role_to_department_spec.2.1
      [Department.init "A" none none none none] []
      (Department.init "B" none none none none)
      (Role.init "R" none none none none) "B"
      (by intro d2 hd2; simp at hd2; simp [hd2, Department.init]) rfl
  · exact add_role_to_department_spec.2.2
      [Department.init "A" none none none none]
      (Role.init "R" none none none none) "C"
      (by intro d2 hd2; simp at hd2; simp [hd2, Department.init])
